import Mathlib

/-!
Shallow embedding of the tide-basic-crud service (a CRUD web service for an
"animals" table) for verification of its specification.

The repository contains three revisions of the same CRUD logic:
* `src/main.rs` (`RestEntity`): creation payload `AnimalRequest` without an
  identifier, the store generates the id; `list` orders by weight; the path
  identifier is parsed with `Uuid::parse_str(..).unwrap()`.
* `src/handlers/animal.rs` (`handlers::animal`): takes a full `Animal`
  (client-supplied id), inserts it verbatim; every sqlx error is mapped to a
  tide error with status 409 via `map_err(|e| Error::new(409, e))`.
* `src/controllers/animal.rs` (`controllers::animal`): HTTP wrappers over the
  handlers, also parsing the path identifier with `unwrap()`.

Modelling decisions:
* A UUID is modelled as a natural number (an opaque 128-bit token); the
  canonical hyphenated textual format of `Uuid::parse_str` is modelled by
  an explicit hexadecimal parser.
* The Postgres table is a list of rows. Modelled from the spec: the schema
  (migrations are not under src/) declares `id` a unique key, so an INSERT
  with a duplicate id fails with a uniqueness violation, and the store
  generates a fresh identifier for the `RestEntity` insert; the generator is
  modelled as a counter `nextId` with every stored id below it.
* A storage-level failure of the single SQL statement is injected through an
  `Option StorageError` parameter: `some e` makes the sqlx call return the
  error `e`, `none` executes the statement against the table.
* `i32` weights are modelled as `Int`; no arithmetic is performed on them
  beyond the comparison in ORDER BY, so no wrap-around is involved.
-/

namespace TideCrud

/-- The persisted animal row (struct `Animal` in main.rs): id, name, weight,
diet, all required. The `Uuid` id is modelled as a natural number. -/
structure Animal where
  id : Nat
  name : String
  weight : Int
  diet : String
  deriving DecidableEq, Repr

/-- The creation payload of the RestEntity revision (struct `AnimalRequest`
in main.rs): name, weight and diet only, no identifier field. -/
structure AnimalRequest where
  name : String
  weight : Int
  diet : String
  deriving DecidableEq, Repr

/-- The closed storage-failure classification of the spec (section 4.2):
a uniqueness/constraint violation, a connection/transport failure, or any
other failure. -/
inductive StorageError where
  | conflict
  | unavailable
  | internal
  deriving DecidableEq, Repr

/-- The animals table: the list of its rows, in storage order. -/
abbrev Table := List Animal

/-- The relational store: the animals table together with the state of the
identifier generator. Modelled from the spec: the identifier is generated by
the storage layer at insert time and is globally unique; the generator is a
counter, with freshness of generated ids expressed by `Db.Fresh`. -/
structure Db where
  table : Table
  nextId : Nat
  deriving DecidableEq, Repr

/-- Invariant of the modelled generator: every stored id is below the
counter, so a generated id never collides with a stored row. -/
def Db.Fresh (db : Db) : Prop :=
  ∀ a ∈ db.table, a.id < db.nextId

instance (db : Db) : Decidable db.Fresh := by
  unfold Db.Fresh; infer_instance

namespace Uuid

/-- Value of one hexadecimal digit, case-insensitive, as in the uuid crate. -/
def hexVal (c : Char) : Option Nat :=
  if '0' ≤ c ∧ c ≤ '9' then some (c.toNat - '0'.toNat)
  else if 'a' ≤ c ∧ c ≤ 'f' then some (c.toNat - 'a'.toNat + 10)
  else if 'A' ≤ c ∧ c ≤ 'F' then some (c.toNat - 'A'.toNat + 10)
  else none

/-- Parse a group of hexadecimal digits, most significant first. -/
def hexGroup : List Char → Nat → Option Nat
  | [], acc => some acc
  | c :: cs, acc =>
    match hexVal c with
    | none => none
    | some v => hexGroup cs (acc * 16 + v)

/-- Split a character list at every hyphen. -/
def splitDash : List Char → List (List Char)
  | [] => [[]]
  | c :: rest =>
    let r := splitDash rest
    if c == '-' then [] :: r
    else
      match r with
      | [] => [[c]]
      | g :: gs => (c :: g) :: gs

/-- Model of `uuid::Uuid::parse_str` on the canonical hyphenated textual
format (8-4-4-4-12 hexadecimal digits). The crate also accepts the simple,
URN and braced variants; only the canonical format is modelled, which is
immaterial to the claims (they need that some strings parse and that
malformed strings fail). -/
def parseStr (s : String) : Option Nat :=
  match splitDash s.data with
  | [g1, g2, g3, g4, g5] =>
    if g1.length == 8 && g2.length == 4 && g3.length == 4 &&
        g4.length == 4 && g5.length == 12 then
      match hexGroup g1 0, hexGroup g2 0, hexGroup g3 0,
          hexGroup g4 0, hexGroup g5 0 with
      | some a, some b, some c, some d, some e =>
        some ((((a * 2 ^ 16 + b) * 2 ^ 16 + c) * 2 ^ 16 + d) * 2 ^ 48 + e)
      | _, _, _, _, _ => none
    else none
  | _ => none

end Uuid

/-- The INSERT of handlers::animal::create:
INSERT INTO animals (id, name, weight, diet) VALUES ($1,$2,$3,$4)
returning id, name, weight, diet.
Modelled from the spec: the schema declares id a unique key, so the insert
fails with a uniqueness violation when a row with that id already exists. -/
def sqlInsertAnimal (a : Animal) (t : Table) :
    Except StorageError (Animal × Table) :=
  if t.any (fun r => r.id == a.id) then .error .conflict
  else .ok (a, t ++ [a])

/-- The INSERT of RestEntity::create:
INSERT INTO animals (name, weight, diet) VALUES ($1,$2,$3)
returning id, name, weight, diet.
Modelled from the spec: the store generates the identifier at insert time;
the generated id is the counter `db.nextId`, which is then incremented. -/
def sqlInsertGenerated (p : AnimalRequest) (db : Db) : Animal × Db :=
  let row : Animal := ⟨db.nextId, p.name, p.weight, p.diet⟩
  (row, ⟨db.table ++ [row], db.nextId + 1⟩)

/-- SELECT id, name, weight, diet FROM animals WHERE id = $1, fetched with
fetch_optional: the first row whose id matches, if any. -/
def sqlSelectById (id : Nat) (t : Table) : Option Animal :=
  t.find? (fun r => r.id == id)

/-- UPDATE animals SET name = $2, weight = $3, diet = $4 WHERE id = $1
returning id, name, weight, diet, fetched with fetch_optional: every row
whose id matches has its name, weight and diet replaced (the id column is
not in the SET list), and the returned row is the updated matching row. -/
def sqlUpdateById (id : Nat) (p : AnimalRequest) (t : Table) :
    Option Animal × Table :=
  ((t.find? (fun r => r.id == id)).map
      (fun r => ⟨r.id, p.name, p.weight, p.diet⟩),
    t.map (fun r => if r.id == id then ⟨r.id, p.name, p.weight, p.diet⟩ else r))

/-- DELETE FROM animals WHERE id = $1 returning id, fetched with
fetch_optional: every row whose id matches is removed, and the returned
value marks whether some row matched. -/
def sqlDeleteById (id : Nat) (t : Table) : Option Nat × Table :=
  ((t.find? (fun r => r.id == id)).map (fun r => r.id),
    t.filter (fun r => !(r.id == id)))

/-- SELECT id, name, weight, diet FROM animals ORDER BY weight: the rows
sorted by weight, ascending. -/
def sqlSelectAllByWeight (t : Table) : List Animal :=
  t.mergeSort (fun a b => decide (a.weight ≤ b.weight))

/-- Body of an HTTP response: empty, a JSON-serialized row, a
JSON-serialized sequence of rows, or plain text. -/
inductive BodyV where
  | empty
  | jsonAnimal (a : Animal)
  | jsonAnimals (l : List Animal)
  | text (s : String)
  deriving DecidableEq, Repr

/-- Outcome of one HTTP handler invocation: a response built by the handler,
a response produced by tide from a propagated error (the `?` operator), or a
panic (`unwrap()` on a failed parse), which produces no HTTP response. -/
inductive HOut where
  | ok (status : Nat) (body : BodyV)
  | err (status : Nat)
  | panicked
  deriving DecidableEq, Repr

/-- Status carried by a handler outcome, when the handler produced an HTTP
response at all (a panic produces none). -/
def HOut.status? : HOut → Option Nat
  | .ok s _ => some s
  | .err s => some s
  | .panicked => none

/-- The sequence of rows carried by a response, when the response carries
one. -/
def HOut.rows? : HOut → Option (List Animal)
  | .ok _ (.jsonAnimals l) => some l
  | _ => none

/-- The id of the row returned by a handlers::animal::create call, when the
call succeeded. -/
def createdId : Except Nat (Animal × Table) → Option Nat
  | .ok (row, _) => some row.id
  | .error _ => none

/-- Run a sequence of creations through the generated-id INSERT of
RestEntity::create. -/
def runCreates (db : Db) (ps : List AnimalRequest) : Db :=
  ps.foldl (fun d p => (sqlInsertGenerated p d).2) db

/-- Run a sequence of deletions through the DELETE statement of
RestEntity::delete. -/
def runDeletes (db : Db) (dels : List Nat) : Db :=
  dels.foldl (fun d i => ⟨(sqlDeleteById i d.table).2, d.nextId⟩) db

/-- The create-then-delete scenario of the spec (section 8): create the
payloads in order, then delete the listed identifiers in order. -/
def scenario (db : Db) (ps : List AnimalRequest) (dels : List Nat) : Db :=
  runDeletes (runCreates db ps) dels

/-- The rows the generated-id INSERT produces for a payload sequence when
the generator counter starts at n: consecutive ids from n. -/
def newRows (n : Nat) : List AnimalRequest → List Animal
  | [] => []
  | p :: ps => ⟨n, p.name, p.weight, p.diet⟩ :: newRows (n + 1) ps

namespace RestEntity

/-- RestEntity::create (main.rs): deserialize the body as AnimalRequest,
run the generated-id INSERT and answer 201 with the created row. A sqlx
error propagates through the `?` operator and tide renders it as a 500
response. -/
def create (fault : Option StorageError) (body : AnimalRequest) (db : Db) :
    HOut × Db :=
  match fault with
  | some _ => (.err 500, db)
  | none =>
    let r := sqlInsertGenerated body db
    (.ok 201 (.jsonAnimal r.1), r.2)

/-- RestEntity::list (main.rs): SELECT ... ORDER BY weight, then always a
200 response carrying the rows; a sqlx error propagates as a 500 response. -/
def list (fault : Option StorageError) (db : Db) : HOut :=
  match fault with
  | some _ => .err 500
  | none => .ok 200 (.jsonAnimals (sqlSelectAllByWeight db.table))

/-- RestEntity::get (main.rs): Uuid::parse_str(req.param).unwrap() — a
malformed id panics the handler — then SELECT by id; no row gives a 404
response with the text body, a row gives 200 with the row. -/
def get (fault : Option StorageError) (idStr : String) (db : Db) : HOut :=
  match Uuid.parseStr idStr with
  | none => .panicked
  | some id =>
    match fault with
    | some _ => .err 500
    | none =>
      match sqlSelectById id db.table with
      | none => .ok 404 (.text "Animal not found")
      | some row => .ok 200 (.jsonAnimal row)

/-- RestEntity::update (main.rs): deserialize the body as AnimalRequest,
unwrap the parsed path id (panic when malformed), then the single UPDATE ...
returning statement; no matching row gives a bare 404 response, a matching
row gives 200 with the post-update row. -/
def update (fault : Option StorageError) (body : AnimalRequest)
    (idStr : String) (db : Db) : HOut × Db :=
  match Uuid.parseStr idStr with
  | none => (.panicked, db)
  | some id =>
    match fault with
    | some _ => (.err 500, db)
    | none =>
      match sqlUpdateById id body db.table with
      | (none, t) => (.ok 404 .empty, ⟨t, db.nextId⟩)
      | (some row, t) => (.ok 200 (.jsonAnimal row), ⟨t, db.nextId⟩)

/-- RestEntity::delete (main.rs): unwrap the parsed path id (panic when
malformed), then the single DELETE ... returning statement; no matching row
gives a bare 404 response, a matching row gives a bare 204 response. -/
def delete (fault : Option StorageError) (idStr : String) (db : Db) :
    HOut × Db :=
  match Uuid.parseStr idStr with
  | none => (.panicked, db)
  | some id =>
    match fault with
    | some _ => (.err 500, db)
    | none =>
      match sqlDeleteById id db.table with
      | (none, t) => (.ok 404 .empty, ⟨t, db.nextId⟩)
      | (some _, t) => (.ok 204 .empty, ⟨t, db.nextId⟩)

end RestEntity

namespace handlers.animal

/-- handlers::animal::create: run the client-id INSERT; every sqlx error,
whatever its class, is mapped by map_err to a tide error with status 409. -/
def create (fault : Option StorageError) (animal : Animal) (t : Table) :
    Except Nat (Animal × Table) :=
  match fault with
  | some _ => .error 409
  | none =>
    match sqlInsertAnimal animal t with
    | .error _ => .error 409
    | .ok r => .ok r

/-- handlers::animal::list: SELECT with no ORDER BY (the rows in storage
order); every sqlx error is mapped to a tide error with status 409. -/
def list (fault : Option StorageError) (t : Table) :
    Except Nat (List Animal) :=
  match fault with
  | some _ => .error 409
  | none => .ok t

/-- handlers::animal::get: SELECT by id with fetch_optional; every sqlx
error is mapped to a tide error with status 409. -/
def get (fault : Option StorageError) (id : Nat) (t : Table) :
    Except Nat (Option Animal) :=
  match fault with
  | some _ => .error 409
  | none => .ok (sqlSelectById id t)

/-- handlers::animal::update: the single UPDATE ... WHERE id = $1 returning
statement, binding only the name, weight and diet of the body (the id field of the body
field is never read); every sqlx error is mapped to status 409. -/
def update (fault : Option StorageError) (id : Nat) (animal : Animal)
    (t : Table) : Except Nat (Option Animal × Table) :=
  match fault with
  | some _ => .error 409
  | none => .ok (sqlUpdateById id ⟨animal.name, animal.weight, animal.diet⟩ t)

/-- handlers::animal::delete: the single DELETE ... WHERE id = $1 returning
statement; Some row becomes Some(()), None stays None; every sqlx error is
mapped to status 409. -/
def delete (fault : Option StorageError) (id : Nat) (t : Table) :
    Except Nat (Option Unit × Table) :=
  match fault with
  | some _ => .error 409
  | none =>
    let r := sqlDeleteById id t
    .ok (r.1.map (fun _ => ()), r.2)

end handlers.animal

namespace controllers.animal

/-- controllers::animal::create: deserialize the body as a full Animal,
call handlers::animal::create; an error propagates through `?` and tide
renders it with the status of that error; success answers 201 with the row. -/
def create (fault : Option StorageError) (animal : Animal) (t : Table) :
    HOut × Table :=
  match handlers.animal.create fault animal t with
  | .error s => (.err s, t)
  | .ok (row, t) => (.ok 201 (.jsonAnimal row), t)

/-- controllers::animal::get: Uuid::parse_str(req.param).unwrap() — a
malformed id panics the handler — then handlers::animal::get; None gives a
bare 404 response, Some gives 200 with the row. -/
def get (fault : Option StorageError) (idStr : String) (t : Table) : HOut :=
  match Uuid.parseStr idStr with
  | none => .panicked
  | some id =>
    match handlers.animal.get fault id t with
    | .error s => .err s
    | .ok none => .ok 404 .empty
    | .ok (some row) => .ok 200 (.jsonAnimal row)

/-- controllers::animal::delete: unwrap the parsed path id (panic when
malformed), then handlers::animal::delete; None gives 404, Some gives 204. -/
def delete (fault : Option StorageError) (idStr : String) (t : Table) :
    HOut × Table :=
  match Uuid.parseStr idStr with
  | none => (.panicked, t)
  | some id =>
    match handlers.animal.delete fault id t with
    | .error s => (.err s, t)
    | .ok (none, t) => (.ok 404 .empty, t)
    | .ok (some _, t) => (.ok 204 .empty, t)

end controllers.animal

/-! Helper lemmas, shared by several claim proofs. -/

/-- A search by id over rows none of which carry the id finds nothing. -/
theorem find?_id_eq_none (id : Nat) (t : Table) (h : ∀ r ∈ t, r.id ≠ id) :
    t.find? (fun r => r.id == id) = none := by
  rw [List.find?_eq_none]
  intro r hr
  simpa using h r hr

/-- Appending a row with a fresh id and searching for that id finds the
appended row. -/
theorem find?_id_append (a : Animal) (t : Table)
    (h : ∀ r ∈ t, r.id ≠ a.id) :
    (t ++ [a]).find? (fun r => r.id == a.id) = some a := by
  induction t with
  | nil => simp [List.find?_cons]
  | cons b t ih =>
    have hb : (b.id == a.id) = false := by simpa using h b (by simp)
    rw [List.cons_append, List.find?_cons, hb]
    exact ih fun r hr => h r (by simp [hr])

/-- The UPDATE row transformation leaves a table without the addressed id
unchanged. -/
theorem map_update_eq_self (id : Nat) (p : AnimalRequest) (t : Table)
    (h : ∀ r ∈ t, r.id ≠ id) :
    t.map (fun r =>
      if r.id == id then (⟨r.id, p.name, p.weight, p.diet⟩ : Animal) else r)
      = t := by
  induction t with
  | nil => rfl
  | cons a t ih =>
    have ha : (a.id == id) = false := by simpa using h a (by simp)
    simp only [List.map_cons, ha, Bool.false_eq_true, ite_false]
    rw [ih fun r hr => h r (by simp [hr])]

/-- The DELETE row filter leaves a table without the addressed id
unchanged. -/
theorem filter_ne_eq_self (id : Nat) (t : Table) (h : ∀ r ∈ t, r.id ≠ id) :
    t.filter (fun r => !(r.id == id)) = t := by
  rw [List.filter_eq_self]
  intro r hr
  simpa using h r hr

/-! Claim theorems. -/

/-- C1: for every valid creation payload, create followed by get on the
identifier of the returned row yields a row equal to the created one (same
identifier, name, weight, diet): in the handlers revision, a successful
handlers::animal::create returns the created row, and handlers::animal::get
on its id over the post-create table returns exactly that row. -/
theorem create_then_get (a : Animal) (t : Table) (row : Animal) (t' : Table)
    (h : handlers.animal.create none a t = .ok (row, t')) :
    row = a ∧ handlers.animal.get none row.id t' = .ok (some row) := by
  unfold handlers.animal.create sqlInsertAnimal at h
  by_cases hc : t.any (fun r => r.id == a.id)
  · simp [hc] at h
  · simp only [hc, Bool.false_eq_true, ite_false] at h
    have hfresh : ∀ r ∈ t, r.id ≠ a.id := by
      intro r hr
      have := (List.any_eq_false.mp (Bool.eq_false_iff.mpr hc)) r hr
      simpa using this
    obtain ⟨hrow, ht⟩ := by
      simpa using h
    subst hrow
    subst ht
    refine ⟨rfl, ?_⟩
    unfold handlers.animal.get sqlSelectById
    rw [find?_id_append a t hfresh]

/-- C2: for every identifier never created or already deleted (no row in the
table carries it), get, update and delete each return the absent result and
the HTTP response has status 404, the table being left unchanged. -/
theorem absent_id_404 (s : String) (id : Nat) (db : Db)
    (body : AnimalRequest)
    (hs : Uuid.parseStr s = some id)
    (habs : ∀ r ∈ db.table, r.id ≠ id) :
    RestEntity.get none s db = .ok 404 (.text "Animal not found") ∧
    RestEntity.update none body s db = (.ok 404 .empty, db) ∧
    RestEntity.delete none s db = (.ok 404 .empty, db) := by
  simp only [RestEntity.get, RestEntity.update, RestEntity.delete, hs,
    sqlSelectById, sqlUpdateById, sqlDeleteById,
    find?_id_eq_none id db.table habs,
    map_update_eq_self id body db.table habs,
    filter_ne_eq_self id db.table habs]
  refine ⟨?_, ?_, ?_⟩ <;> trivial

/-- C5: update never changes a stored identifier: the path identifier
selects the row, the body identifier is ignored (replacing it changes
nothing), the returned row carries the path identifier and the id column
column is untouched. -/
theorem update_preserves_identifier (fault : Option StorageError)
    (id j : Nat) (a : Animal) (t : Table) :
    handlers.animal.update fault id a t =
      handlers.animal.update fault id ⟨j, a.name, a.weight, a.diet⟩ t ∧
    ∀ row t', handlers.animal.update fault id a t = .ok (some row, t') →
      row.id = id ∧ t'.map (fun r => r.id) = t.map (fun r => r.id) := by
  refine ⟨rfl, ?_⟩
  intro row t' h
  match fault with
  | some e =>
    unfold handlers.animal.update at h
    exact Except.noConfusion h
  | none =>
    unfold handlers.animal.update sqlUpdateById at h
    obtain ⟨⟨r, hf, hrow⟩, ht⟩ := by
      simpa using h
    constructor
    · have hp := List.find?_some hf
      rw [← hrow]
      simpa using hp
    · rw [← ht, List.map_map]
      apply List.map_congr_left
      intro x hx
      by_cases hid : x.id = id <;> simp [Function.comp, hid]

/-- Witness for C1 at a concrete payload and the empty table. -/
theorem create_then_get_witness :
    handlers.animal.create none ⟨5, "rex", 500, "carnivorous"⟩ [] =
      .ok (⟨5, "rex", 500, "carnivorous"⟩, [⟨5, "rex", 500, "carnivorous"⟩]) ∧
    ((⟨5, "rex", 500, "carnivorous"⟩ : Animal) = ⟨5, "rex", 500, "carnivorous"⟩ ∧
      handlers.animal.get none (5 : Nat) [⟨5, "rex", 500, "carnivorous"⟩] =
        .ok (some ⟨5, "rex", 500, "carnivorous"⟩)) :=
  ⟨rfl, create_then_get ⟨5, "rex", 500, "carnivorous"⟩ [] _ _ rfl⟩

/-- Witness for C2 at a concrete parsable identifier and the empty table. -/
theorem absent_id_404_witness :
    Uuid.parseStr "00000000-0000-0000-0000-000000000001" = some 1 ∧
    (∀ r ∈ ([] : Table), r.id ≠ 1) ∧
    (RestEntity.get none "00000000-0000-0000-0000-000000000001" ⟨[], 0⟩ =
        .ok 404 (.text "Animal not found") ∧
      RestEntity.update none ⟨"n", 1, "d"⟩
          "00000000-0000-0000-0000-000000000001" ⟨[], 0⟩ =
        (.ok 404 .empty, ⟨[], 0⟩) ∧
      RestEntity.delete none "00000000-0000-0000-0000-000000000001" ⟨[], 0⟩ =
        (.ok 404 .empty, ⟨[], 0⟩)) :=
  ⟨by decide, by simp,
    absent_id_404 _ 1 ⟨[], 0⟩ ⟨"n", 1, "d"⟩ (by decide) (by simp)⟩

/-- Witness for C5 at a concrete table where the update succeeds and the
body carries a different identifier than the path. -/
theorem update_preserves_identifier_witness :
    handlers.animal.update none 1 ⟨9, "n", 3, "d"⟩ [⟨1, "x", 2, "y"⟩] =
      .ok (some ⟨1, "n", 3, "d"⟩, [⟨1, "n", 3, "d"⟩]) ∧
    ((⟨1, "n", 3, "d"⟩ : Animal).id = 1 ∧
      ([(⟨1, "n", 3, "d"⟩ : Animal)]).map (fun r => r.id) =
        ([(⟨1, "x", 2, "y"⟩ : Animal)]).map (fun r => r.id)) :=
  ⟨rfl, (update_preserves_identifier none 1 9 ⟨9, "n", 3, "d"⟩
    [⟨1, "x", 2, "y"⟩]).2 ⟨1, "n", 3, "d"⟩ [⟨1, "n", 3, "d"⟩] rfl⟩

/-- C9: when the addressed identifier matches no row, the single-statement
update and delete operations return the absent result and leave the table
completely unchanged. -/
theorem absent_update_delete_unchanged (id : Nat) (a : Animal) (t : Table)
    (h : ∀ r ∈ t, r.id ≠ id) :
    handlers.animal.update none id a t = .ok (none, t) ∧
    handlers.animal.delete none id t = .ok (none, t) := by
  unfold handlers.animal.update handlers.animal.delete
  unfold sqlUpdateById sqlDeleteById
  rw [find?_id_eq_none id t h, map_update_eq_self id _ t h,
    filter_ne_eq_self id t h]
  exact ⟨rfl, rfl⟩

/-- Witness for C9 at a concrete table not containing the identifier. -/
theorem absent_update_delete_unchanged_witness :
    (∀ r ∈ ([(⟨2, "a", 1, "x"⟩ : Animal)] : Table), r.id ≠ 1) ∧
    (handlers.animal.update none 1 ⟨9, "n", 3, "d"⟩ [⟨2, "a", 1, "x"⟩] =
        .ok (none, [⟨2, "a", 1, "x"⟩]) ∧
      handlers.animal.delete none 1 [⟨2, "a", 1, "x"⟩] =
        .ok (none, [⟨2, "a", 1, "x"⟩])) :=
  ⟨by decide,
    absent_update_delete_unchanged 1 ⟨9, "n", 3, "d"⟩ [⟨2, "a", 1, "x"⟩]
      (by decide)⟩

/-- C3 counterexample: a get whose path identifier is the malformed string
"zzz" does not fail with BadRequest and no response with status 400 is
produced: the handler panics on the unwrap of the parse result. -/
theorem malformed_id_cex :
    RestEntity.get none "zzz" ⟨[], 0⟩ = HOut.panicked ∧
    (RestEntity.get none "zzz" ⟨[], 0⟩).status? ≠ some 400 := by
  refine ⟨?_, ?_⟩ <;> decide

/-- C3 (amended): for every get, update or delete request whose path
identifier fails UUID parsing (the body, where present, being well-formed),
the handler panics on the unwrap of the parse result and produces no HTTP
response at all — in particular no 400 BadRequest — and the store is left
unchanged. -/
theorem malformed_id_panics (s : String) (hs : Uuid.parseStr s = none)
    (fault : Option StorageError) (db : Db) (body : AnimalRequest)
    (t : Table) :
    RestEntity.get fault s db = .panicked ∧
    RestEntity.update fault body s db = (.panicked, db) ∧
    RestEntity.delete fault s db = (.panicked, db) ∧
    controllers.animal.get fault s t = .panicked := by
  simp only [RestEntity.get, RestEntity.update, RestEntity.delete,
    controllers.animal.get, hs]
  refine ⟨?_, ?_, ?_, ?_⟩ <;> trivial

/-- Witness for the amended C3 at the malformed identifier "zzz". -/
theorem malformed_id_panics_witness :
    Uuid.parseStr "zzz" = none ∧
    (RestEntity.get none "zzz" ⟨[], 0⟩ = .panicked ∧
      RestEntity.update none ⟨"n", 1, "d"⟩ "zzz" ⟨[], 0⟩ =
        (.panicked, ⟨[], 0⟩) ∧
      RestEntity.delete none "zzz" ⟨[], 0⟩ = (.panicked, ⟨[], 0⟩) ∧
      controllers.animal.get none "zzz" [] = .panicked) :=
  ⟨by decide, malformed_id_panics "zzz" (by decide) none ⟨[], 0⟩
    ⟨"n", 1, "d"⟩ []⟩

/-- C4 counterexample: a create whose storage layer fails with Unavailable
(a connection/transport failure) yields HTTP status 409, not 500. -/
theorem create_unavailable_cex :
    handlers.animal.create (some .unavailable) ⟨0, "rex", 500, "carnivorous"⟩
      [] = .error 409 ∧ (409 : Nat) ≠ 500 :=
  ⟨rfl, by decide⟩

/-- C4 (amended): in the handlers revision every storage failure of create
or list, whatever its classification (conflict, unavailable or internal),
is mapped to HTTP status 409, and a uniqueness conflict on create also
yields 409; status 500 is never produced by these paths. -/
theorem storage_failures_map_to_409 (e : StorageError) (a : Animal)
    (t : Table) :
    handlers.animal.create (some e) a t = .error 409 ∧
    handlers.animal.list (some e) t = .error 409 ∧
    (a.id ∈ t.map (fun r => r.id) →
      handlers.animal.create none a t = .error 409) := by
  refine ⟨rfl, rfl, ?_⟩
  intro hmem
  unfold handlers.animal.create sqlInsertAnimal
  have hany : t.any (fun r => r.id == a.id) = true := by
    rw [List.any_eq_true]
    obtain ⟨r, hr, hid⟩ := List.mem_map.mp hmem
    exact ⟨r, hr, by simp [hid]⟩
  simp [hany]

/-- Witness for the amended C4 at a concrete failure and a concrete
conflicting insert. -/
theorem storage_failures_map_to_409_witness :
    ((⟨7, "n", 1, "d"⟩ : Animal).id ∈
      ([(⟨7, "m", 2, "e"⟩ : Animal)] : Table).map (fun r => r.id)) ∧
    handlers.animal.create none ⟨7, "n", 1, "d"⟩ [⟨7, "m", 2, "e"⟩] =
      .error 409 :=
  ⟨by decide,
    (storage_failures_map_to_409 .internal ⟨7, "n", 1, "d"⟩
      [⟨7, "m", 2, "e"⟩]).2.2 (by decide)⟩

/-- C6 counterexample: in the handlers/controllers revision the creation
payload is a full Animal and the client-supplied identifier becomes the
identifier of the inserted row: two creates differing only in the payload
identifier produce rows carrying the two different client-chosen
identifiers. -/
theorem client_supplied_id_cex :
    createdId (handlers.animal.create none ⟨5, "n", 1, "d"⟩ []) = some 5 ∧
    createdId (handlers.animal.create none ⟨6, "n", 1, "d"⟩ []) = some 6 ∧
    (5 : Nat) ≠ 6 :=
  ⟨rfl, rfl, by decide⟩

/-- C6 (amended): in the RestEntity revision the creation payload carries
only name, weight and diet and the identifier of the new row is the one the
storage generator supplies at insert time; in the handlers/controllers
revision the payload is a full Animal and the inserted row keeps the
client-supplied identifier. -/
theorem created_id_by_revision (p : AnimalRequest) (db : Db) (a : Animal)
    (t t' : Table) (row : Animal)
    (h : handlers.animal.create none a t = .ok (row, t')) :
    RestEntity.create none p db =
      (.ok 201 (.jsonAnimal ⟨db.nextId, p.name, p.weight, p.diet⟩),
        ⟨db.table ++ [⟨db.nextId, p.name, p.weight, p.diet⟩],
          db.nextId + 1⟩) ∧
    row.id = a.id := by
  refine ⟨rfl, ?_⟩
  unfold handlers.animal.create sqlInsertAnimal at h
  by_cases hc : t.any (fun r => r.id == a.id)
  · simp [hc] at h
  · simp only [hc, Bool.false_eq_true, ite_false] at h
    obtain ⟨hrow, -⟩ := by simpa using h
    rw [← hrow]

/-- Witness for the amended C6 at concrete payloads. -/
theorem created_id_by_revision_witness :
    handlers.animal.create none ⟨5, "x", 2, "y"⟩ [] =
      .ok (⟨5, "x", 2, "y"⟩, [⟨5, "x", 2, "y"⟩]) ∧
    (RestEntity.create none ⟨"n", 1, "d"⟩ ⟨[], 0⟩ =
        (.ok 201 (.jsonAnimal ⟨0, "n", 1, "d"⟩), ⟨[⟨0, "n", 1, "d"⟩], 1⟩) ∧
      (⟨5, "x", 2, "y"⟩ : Animal).id = (⟨5, "x", 2, "y"⟩ : Animal).id) :=
  ⟨rfl, created_id_by_revision ⟨"n", 1, "d"⟩ ⟨[], 0⟩ ⟨5, "x", 2, "y"⟩ [] _ _
    rfl⟩

/-- Characterization of RestEntity::delete on a parsable identifier: the
response is 404 or 204 according to whether a row matched, and the new
table is the old one with every matching row removed. -/
theorem restDelete_eq (s : String) (id : Nat) (db : Db)
    (hs : Uuid.parseStr s = some id) :
    RestEntity.delete none s db =
      ((match db.table.find? (fun r => r.id == id) with
        | none => .ok 404 .empty
        | some _ => .ok 204 .empty),
        ⟨db.table.filter (fun r => !(r.id == id)), db.nextId⟩) := by
  simp only [RestEntity.delete, hs, sqlDeleteById]
  cases h : db.table.find? (fun r => r.id == id) <;> simp

/-- C7: delete is idempotent in effect but not in status: after a delete on
an identifier succeeds with status 204, a second delete on the same
identifier leaves the table unchanged and returns status 404, not 204. -/
theorem delete_twice (s : String) (id : Nat) (db : Db)
    (hs : Uuid.parseStr s = some id)
    (_h204 : (RestEntity.delete none s db).1 = .ok 204 .empty) :
    RestEntity.delete none s ((RestEntity.delete none s db).2) =
      (.ok 404 .empty, (RestEntity.delete none s db).2) := by
  have habs : ∀ r ∈ db.table.filter (fun r => !(r.id == id)), r.id ≠ id := by
    intro r hr
    simpa using (List.mem_filter.mp hr).2
  rw [restDelete_eq s id db hs]
  dsimp only
  rw [restDelete_eq s id ⟨db.table.filter (fun r => !(r.id == id)),
    db.nextId⟩ hs]
  dsimp only
  rw [find?_id_eq_none id _ habs, filter_ne_eq_self id _ habs]

/-- Witness for C7 at a concrete identifier present in the table. -/
theorem delete_twice_witness :
    Uuid.parseStr "00000000-0000-0000-0000-000000000000" = some 0 ∧
    (RestEntity.delete none "00000000-0000-0000-0000-000000000000"
        ⟨[⟨0, "a", 1, "x"⟩], 1⟩).1 = .ok 204 .empty ∧
    RestEntity.delete none "00000000-0000-0000-0000-000000000000"
        ((RestEntity.delete none "00000000-0000-0000-0000-000000000000"
          ⟨[⟨0, "a", 1, "x"⟩], 1⟩).2) =
      (.ok 404 .empty,
        (RestEntity.delete none "00000000-0000-0000-0000-000000000000"
          ⟨[⟨0, "a", 1, "x"⟩], 1⟩).2) :=
  ⟨by decide, by decide,
    delete_twice _ 0 ⟨[⟨0, "a", 1, "x"⟩], 1⟩ (by decide) (by decide)⟩

/-- C10: the API-facing list operation always answers 200 and its body is
the rows of the table sorted by weight in ascending order: the body is pairwise
nondecreasing in weight and a permutation of the table, for every table
state. -/
theorem list_sorted_by_weight (db : Db) :
    RestEntity.list none db =
      .ok 200 (.jsonAnimals (sqlSelectAllByWeight db.table)) ∧
    List.Pairwise (fun a b : Animal => a.weight ≤ b.weight)
      (sqlSelectAllByWeight db.table) ∧
    List.Perm (sqlSelectAllByWeight db.table) db.table := by
  refine ⟨rfl, ?_, List.mergeSort_perm db.table _⟩
  have htrans : ∀ a b c : Animal,
      decide (a.weight ≤ b.weight) = true →
      decide (b.weight ≤ c.weight) = true →
      decide (a.weight ≤ c.weight) = true := by
    intro a b c hab hbc
    simp only [decide_eq_true_eq] at *
    exact le_trans hab hbc
  have htotal : ∀ a b : Animal,
      (decide (a.weight ≤ b.weight) || decide (b.weight ≤ a.weight)) = true := by
    intro a b
    simpa using le_total a.weight b.weight
  have hp := List.sorted_mergeSort htrans htotal db.table
  exact hp.imp fun h => by simpa using h

/-! Scenario lemmas for the create-then-delete property. -/

/-- A run of generated-id inserts appends the newRows block and advances
the generator by the payload count. -/
theorem runCreates_eq (ps : List AnimalRequest) (db : Db) :
    runCreates db ps =
      ⟨db.table ++ newRows db.nextId ps, db.nextId + ps.length⟩ := by
  induction ps generalizing db with
  | nil => simp [runCreates, newRows]
  | cons p ps ih =>
    have hstep : runCreates db (p :: ps) =
        runCreates ((sqlInsertGenerated p db).2) ps := rfl
    have hnr : newRows db.nextId (p :: ps) =
        ⟨db.nextId, p.name, p.weight, p.diet⟩ ::
          newRows (db.nextId + 1) ps := rfl
    rw [hstep, ih, hnr]
    show (⟨(db.table ++ [⟨db.nextId, p.name, p.weight, p.diet⟩]) ++
        newRows (db.nextId + 1) ps, db.nextId + 1 + ps.length⟩ : Db) = _
    rw [List.append_assoc]
    simp only [List.singleton_append, List.length_cons]
    congr 1
    omega

/-- The ids of the newRows block are the consecutive range from the
starting counter. -/
theorem newRows_map_id (n : Nat) (ps : List AnimalRequest) :
    (newRows n ps).map (fun r => r.id) = List.range' n ps.length := by
  induction ps generalizing n with
  | nil => rfl
  | cons p ps ih =>
    rw [List.length_cons, List.range'_succ n ps.length 1]
    simpa [newRows] using ih (n + 1)

/-- The newRows block has one row per payload. -/
theorem newRows_length (n : Nat) (ps : List AnimalRequest) :
    (newRows n ps).length = ps.length := by
  induction ps generalizing n with
  | nil => rfl
  | cons p ps ih => simp [newRows, ih]

/-- The i-th created row, built from the i-th payload and the i-th
generated id, is in the newRows block. -/
theorem newRows_mem (n : Nat) (ps : List AnimalRequest) (i : Nat)
    (hi : i < ps.length) :
    (⟨n + i, (ps.get ⟨i, hi⟩).name, (ps.get ⟨i, hi⟩).weight,
      (ps.get ⟨i, hi⟩).diet⟩ : Animal) ∈ newRows n ps := by
  induction ps generalizing n i with
  | nil => exact absurd hi (by simp)
  | cons p ps ih =>
    match i with
    | 0 => simp [newRows]
    | i + 1 =>
      refine List.mem_cons_of_mem _ ?_
      have heq : n + (i + 1) = (n + 1) + i := by omega
      rw [heq]
      exact ih (n + 1) i (by simpa using hi)

/-- Counting rows by id equals counting that id among the id column. -/
theorem countP_id (l : List Animal) (d : Nat) :
    l.countP (fun r => r.id == d) = (l.map (fun r => r.id)).count d := by
  have h1 : (l.map (fun r => r.id)).count d =
      (l.map (fun r => r.id)).countP (· == d) := rfl
  rw [h1, List.countP_map]
  rfl

/-- Removing the rows satisfying a predicate shortens a list by the number
of rows satisfying it. -/
theorem length_filter_not (p : Animal → Bool) (l : List Animal) :
    (l.filter (fun a => !(p a))).length = l.length - l.countP p := by
  induction l with
  | nil => rfl
  | cons a l ih =>
    have hle : l.countP p ≤ l.length := l.countP_le_length p
    by_cases h : p a
    · simp [List.filter_cons, List.countP_cons, h, ih]
    · simp [List.filter_cons, List.countP_cons, h, ih]
      omega

/-- Filtering out one id leaves the count of any other id unchanged. -/
theorem countP_filter_other (d d' : Nat) (hne : d' ≠ d) (l : List Animal) :
    (l.filter (fun r => !(r.id == d))).countP (fun r => r.id == d') =
      l.countP (fun r => r.id == d') := by
  induction l with
  | nil => rfl
  | cons a l ih =>
    by_cases h : a.id = d
    · have h2 : a.id ≠ d' := by rw [h]; exact hne.symm
      simp [List.filter_cons, List.countP_cons, h, h2, ih, hne.symm]
    · by_cases h3 : a.id = d'
      · simp [List.filter_cons, List.countP_cons, h, h3, ih, hne]
      · simp [List.filter_cons, List.countP_cons, h, h3, ih]

/-- Specification of a run of single-statement deletes over distinct ids
each matching exactly one row: the table shrinks by one row per id, the
generator is untouched, and every row whose id is not deleted survives. -/
theorem runDeletes_spec (dels : List Nat) (db : Db)
    (hd : dels.Nodup)
    (hcount : ∀ d ∈ dels, db.table.countP (fun r => r.id == d) = 1) :
    (runDeletes db dels).table.length = db.table.length - dels.length ∧
    (runDeletes db dels).nextId = db.nextId ∧
    ∀ r ∈ db.table, r.id ∉ dels → r ∈ (runDeletes db dels).table := by
  induction dels generalizing db with
  | nil => exact ⟨rfl, rfl, fun r hr _ => hr⟩
  | cons d dels ih =>
    have hstep : runDeletes db (d :: dels) =
        runDeletes ⟨db.table.filter (fun r => !(r.id == d)), db.nextId⟩
          dels := rfl
    obtain ⟨hlen, hnext, hmem⟩ :=
      ih ⟨db.table.filter (fun r => !(r.id == d)), db.nextId⟩
        (List.nodup_cons.mp hd).2
        (by
          intro d' hd'
          have hne : d' ≠ d := by
            intro hEq
            exact (List.nodup_cons.mp hd).1 (hEq ▸ hd')
          show (db.table.filter (fun r => !(r.id == d))).countP
            (fun r => r.id == d') = 1
          rw [countP_filter_other d d' hne]
          exact hcount d' (List.mem_cons_of_mem _ hd'))
    refine ⟨?_, ?_, ?_⟩
    · rw [hstep, hlen]
      show (db.table.filter (fun r => !(r.id == d))).length - dels.length = _
      rw [length_filter_not (fun r => r.id == d) db.table,
        hcount d (by simp)]
      simp only [List.length_cons]
      omega
    · rw [hstep, hnext]
    · intro r hr hnotin
      rw [hstep]
      refine hmem r ?_ ?_
      · refine List.mem_filter.mpr ⟨hr, ?_⟩
        have : r.id ≠ d := fun hEq => hnotin (by simp [hEq])
        simpa using this
      · exact fun hc => hnotin (List.mem_cons_of_mem _ hc)

/-- C8 counterexample: from a starting state already holding one row,
creating zero rows and deleting zero of them, list returns one row, not
0 − 0 = 0 rows: the row count of the claim ignores the starting state. -/
theorem list_count_cex :
    (RestEntity.list none
      (scenario ⟨[⟨5, "a", 1, "x"⟩], 6⟩ [] [])).rows?.map List.length =
      some 1 ∧ (1 : Nat) ≠ 0 - 0 := by
  refine ⟨?_, by decide⟩
  show ((RestEntity.list none
    ((⟨[⟨5, "a", 1, "x"⟩], 6⟩ : Db))).rows?.map List.length) = some 1
  simp [RestEntity.list, HOut.rows?, sqlSelectAllByWeight]

/-- C8 (amended): for every starting state whose stored ids are all below
the generator counter, after creating N rows and then deleting M distinct
identifiers from among the newly created ones, list answers 200 and carries
exactly (initial row count) + N − M rows, sorted by weight, each equal to
its last-written state: every pre-existing row survives unchanged (the
deleted identifiers are all newly generated ones), and every created row
whose identifier was not deleted is still present with its created
name, weight and diet. -/
theorem list_after_scenario (db : Db) (ps : List AnimalRequest)
    (dels : List Nat) (hfresh : db.Fresh) (hnd : dels.Nodup)
    (hsub : ∀ d ∈ dels, d ∈ List.range' db.nextId ps.length) :
    RestEntity.list none (scenario db ps dels) =
      .ok 200 (.jsonAnimals
        (sqlSelectAllByWeight (scenario db ps dels).table)) ∧
    (scenario db ps dels).table.length =
      db.table.length + ps.length - dels.length ∧
    (∀ r ∈ db.table, r ∈ (scenario db ps dels).table) ∧
    ∀ i (hi : i < ps.length), db.nextId + i ∉ dels →
      (⟨db.nextId + i, (ps.get ⟨i, hi⟩).name, (ps.get ⟨i, hi⟩).weight,
        (ps.get ⟨i, hi⟩).diet⟩ : Animal) ∈ (scenario db ps dels).table := by
  have hrc := runCreates_eq ps db
  have hcount : ∀ d ∈ dels,
      (runCreates db ps).table.countP (fun r => r.id == d) = 1 := by
    intro d hdm
    rw [hrc]
    show (db.table ++ newRows db.nextId ps).countP (fun r => r.id == d) = 1
    rw [List.countP_append]
    have hd1 : db.table.countP (fun r => r.id == d) = 0 := by
      rw [List.countP_eq_zero]
      intro r hr
      have h1 : r.id < db.nextId := hfresh r hr
      have h2 : db.nextId ≤ d := (List.mem_range'_1.mp (hsub d hdm)).1
      simp only [beq_iff_eq]
      omega
    have hd2 : (newRows db.nextId ps).countP (fun r => r.id == d) = 1 := by
      rw [countP_id, newRows_map_id]
      exact List.count_eq_one_of_mem
        (List.nodup_range' db.nextId ps.length 1 one_pos) (hsub d hdm)
    omega
  obtain ⟨hlen, hnext, hmem⟩ :=
    runDeletes_spec dels (runCreates db ps) hnd hcount
  refine ⟨rfl, ?_, ?_, ?_⟩
  · show (runDeletes (runCreates db ps) dels).table.length = _
    rw [hlen, hrc]
    show (db.table ++ newRows db.nextId ps).length - dels.length = _
    rw [List.length_append, newRows_length]
  · intro r hr
    show r ∈ (runDeletes (runCreates db ps) dels).table
    refine hmem r ?_ ?_
    · rw [hrc]
      exact List.mem_append_left _ hr
    · intro hin
      have h1 : r.id < db.nextId := hfresh r hr
      have h2 : db.nextId ≤ r.id := (List.mem_range'_1.mp (hsub r.id hin)).1
      omega
  · intro i hi hni
    show _ ∈ (runDeletes (runCreates db ps) dels).table
    refine hmem _ ?_ hni
    rw [hrc]
    exact List.mem_append_right _ (newRows_mem db.nextId ps i hi)

/-- Witness for the amended C8: a store holding one row, then two creations
and one deletion of a created identifier; the pre-existing row survives
unchanged and the surviving created row keeps its created state. -/
theorem list_after_scenario_witness :
    Db.Fresh ⟨[⟨100, "z", 9, "w"⟩], 101⟩ ∧ ([101] : List Nat).Nodup ∧
    (∀ d ∈ ([101] : List Nat), d ∈ List.range' 101 2) ∧
    (scenario ⟨[⟨100, "z", 9, "w"⟩], 101⟩
      [⟨"a", 2, "x"⟩, ⟨"b", 1, "y"⟩] [101]).table.length = 1 + 2 - 1 ∧
    (⟨100, "z", 9, "w"⟩ : Animal) ∈
      (scenario ⟨[⟨100, "z", 9, "w"⟩], 101⟩
        [⟨"a", 2, "x"⟩, ⟨"b", 1, "y"⟩] [101]).table ∧
    (⟨101 + 1, "b", 1, "y"⟩ : Animal) ∈
      (scenario ⟨[⟨100, "z", 9, "w"⟩], 101⟩
        [⟨"a", 2, "x"⟩, ⟨"b", 1, "y"⟩] [101]).table :=
  ⟨by decide, by decide, by decide,
    (list_after_scenario ⟨[⟨100, "z", 9, "w"⟩], 101⟩
      [⟨"a", 2, "x"⟩, ⟨"b", 1, "y"⟩] [101]
      (by decide) (by decide) (by decide)).2.1,
    (list_after_scenario ⟨[⟨100, "z", 9, "w"⟩], 101⟩
      [⟨"a", 2, "x"⟩, ⟨"b", 1, "y"⟩] [101]
      (by decide) (by decide) (by decide)).2.2.1 ⟨100, "z", 9, "w"⟩
      (by decide),
    (list_after_scenario ⟨[⟨100, "z", 9, "w"⟩], 101⟩
      [⟨"a", 2, "x"⟩, ⟨"b", 1, "y"⟩] [101]
      (by decide) (by decide) (by decide)).2.2.2 1 (by decide) (by decide)⟩

end TideCrud
